import Mathlib

/-!
# Verification of the feed reader's sync and indexing core

A shallow embedding of the feed ingestion / synchronization layer and the
full-text-search query sanitizer of the terminal feed reader, together with
proofs of the testable properties stated in its specification.

The database is modelled as a pure value (`Db`) holding the `feeds` and
`articles` tables as lists; SQL statements from `src/db/queries.ts` become
pure functions on `Db`.  External effects (network fetch, date parsing, the
store throwing on a single-row upsert) are modelled as oracle parameters.
-/

set_option maxHeartbeats 1000000

namespace Burp

/-- A row of the `feeds` table (`queries.ts`, interface `Feed`). -/
structure Feed where
  id : Nat
  url : String
  title : String
  description : String
  site_url : String
  category : String
  created_at : Nat
  last_fetched_at : Option Nat
deriving Repr, DecidableEq

/-- A row of the `articles` table (`queries.ts`, interface `Article`).
`is_read` / `is_starred` are the SQLite `0 | 1` flags. -/
structure Article where
  id : Nat
  feed_id : Nat
  guid : String
  title : String
  link : String
  content : String
  summary : String
  author : String
  published_at : Option Int
  is_read : Nat
  is_starred : Nat
  created_at : Nat
deriving Repr, DecidableEq

/-- The database state: the two tables the sync core touches, plus the
autoincrement counter for `articles.id`. -/
structure Db where
  feeds : List Feed
  articles : List Article
  nextArticleId : Nat
deriving Repr, DecidableEq

/-- Argument record of `upsertArticle` (`queries.ts`, `UpsertArticleInput`). -/
structure UpsertArticleInput where
  feed_id : Nat
  guid : String
  title : String
  link : String
  content : String
  summary : String
  author : String
  published_at : Option Int
deriving Repr, DecidableEq

/-- The `UNIQUE(feed_id, guid)` key test used by the upsert's conflict
clause. -/
def articleKeyMatches (fid : Nat) (g : String) (r : Article) : Bool :=
  r.feed_id == fid && r.guid == g

/-- Row lookup by the unique `(feed_id, guid)` key. -/
def findByKey (db : Db) (fid : Nat) (g : String) : Option Article :=
  db.articles.find? (articleKeyMatches fid g)

/-- The `DO UPDATE SET` clause of `upsertArticle`: only the six content
fields are overwritten by `excluded.*`. -/
def applyContentUpdate (a : UpsertArticleInput) (r : Article) : Article :=
  { r with
    title := a.title
    link := a.link
    content := a.content
    summary := a.summary
    author := a.author
    published_at := a.published_at }

/-- Update the (unique) conflicting row in place, leaving every other row
untouched. -/
def updateFirstMatch (a : UpsertArticleInput) : List Article → List Article
  | [] => []
  | r :: rs =>
    if articleKeyMatches a.feed_id a.guid r then applyContentUpdate a r :: rs
    else r :: updateFirstMatch a rs

/-- The freshly inserted row of the insert branch: flags default to `0`,
`created_at` defaults to the current time, `id` is the autoincrement value. -/
def newArticleRow (db : Db) (now : Nat) (a : UpsertArticleInput) : Article :=
  { id := db.nextArticleId
    feed_id := a.feed_id
    guid := a.guid
    title := a.title
    link := a.link
    content := a.content
    summary := a.summary
    author := a.author
    published_at := a.published_at
    is_read := 0
    is_starred := 0
    created_at := now }

/-- `upsertArticle` (`queries.ts`): `INSERT ... ON CONFLICT(feed_id, guid)
DO UPDATE SET title, link, content, summary, author, published_at ...
RETURNING *`.  Returns the new state and the resulting row. -/
def upsertArticle (db : Db) (now : Nat) (a : UpsertArticleInput) : Db × Article :=
  match findByKey db a.feed_id a.guid with
  | some r =>
    ({ db with articles := updateFirstMatch a db.articles }, applyContentUpdate a r)
  | none =>
    let r := newArticleRow db now a
    ({ db with articles := db.articles ++ [r], nextArticleId := db.nextArticleId + 1 }, r)

/-- Number of stored rows with a given `(feed_id, guid)` key; the SQLite
unique constraint keeps this at most `1`. -/
def countKey (db : Db) (fid : Nat) (g : String) : Nat :=
  (db.articles.filter (articleKeyMatches fid g)).length

/-- `markArticleRead` (`queries.ts`): `UPDATE articles SET is_read = ?
WHERE id = ?`. -/
def markArticleRead (db : Db) (id : Nat) (isRead : Bool) : Db :=
  { db with
    articles := db.articles.map fun r =>
      if r.id == id then { r with is_read := if isRead then 1 else 0 } else r }

/-- `getFeedById` (`queries.ts`): `SELECT * FROM feeds WHERE id = ?`. -/
def getFeedById (db : Db) (id : Nat) : Option Feed :=
  db.feeds.find? (fun f => f.id == id)

/-- `touchFeedFetchedAt` (`queries.ts`): `UPDATE feeds SET last_fetched_at =
unixepoch() WHERE id = ?`; the current time is the `now` parameter. -/
def touchFeedFetchedAt (db : Db) (id : Nat) (now : Nat) : Db :=
  { db with
    feeds := db.feeds.map fun f =>
      if f.id == id then { f with last_fetched_at := some now } else f }

/-- A row of `listFeeds`'s result set: `f.*` plus the per-feed unread
count (`queries.ts`, interface `FeedWithUnread`). -/
structure FeedWithUnread where
  id : Nat
  url : String
  title : String
  description : String
  site_url : String
  category : String
  created_at : Nat
  last_fetched_at : Option Nat
  unread_count : Nat
deriving Repr, DecidableEq

/-- The `COUNT(CASE WHEN a.is_read = 0 THEN 1 END)` aggregate of
`listFeeds`, grouped on one feed. -/
def unreadCount (db : Db) (fid : Nat) : Nat :=
  (db.articles.filter (fun a => a.feed_id == fid && a.is_read == 0)).length

/-- Attach the unread count to one feed row. -/
def feedWithUnread (db : Db) (f : Feed) : FeedWithUnread :=
  { id := f.id
    url := f.url
    title := f.title
    description := f.description
    site_url := f.site_url
    category := f.category
    created_at := f.created_at
    last_fetched_at := f.last_fetched_at
    unread_count := unreadCount db f.id }

/-- ASCII case-folded code point, modelling the `NOCASE` collation. -/
def nocaseVal (c : Char) : Nat := c.toLower.toNat

/-- Case-insensitive lexicographic order on strings (as `NOCASE` compares
titles). -/
def nocaseLe : List Char → List Char → Bool
  | [], _ => true
  | _ :: _, [] => false
  | a :: as, b :: bs =>
    if nocaseVal a < nocaseVal b then true
    else if nocaseVal b < nocaseVal a then false
    else nocaseLe as bs

/-- `ORDER BY f.title COLLATE NOCASE` on the joined rows. -/
def feedTitleLe (a b : FeedWithUnread) : Bool :=
  nocaseLe a.title.toList b.title.toList

/-- Insertion into a sorted list (for the `ORDER BY`). -/
def insertSorted (le : FeedWithUnread → FeedWithUnread → Bool) (x : FeedWithUnread) :
    List FeedWithUnread → List FeedWithUnread
  | [] => [x]
  | y :: ys => if le x y then x :: y :: ys else y :: insertSorted le x ys

/-- Insertion sort (for the `ORDER BY`). -/
def sortFeeds (le : FeedWithUnread → FeedWithUnread → Bool) :
    List FeedWithUnread → List FeedWithUnread
  | [] => []
  | x :: xs => insertSorted le x (sortFeeds le xs)

/-- `listFeeds` (`queries.ts`): left-join unread counts onto every feed and
order by title, case-insensitively. -/
def listFeeds (db : Db) : List FeedWithUnread :=
  sortFeeds feedTitleLe (db.feeds.map (feedWithUnread db))

-- ─── Sync core (`services/feed.ts`) ───────────────────────────────────────────

/-- A normalized feed item (`feed.ts`, interface `ParsedFeedItem`). -/
structure ParsedFeedItem where
  guid : String
  title : String
  link : String
  content : String
  summary : String
  author : String
  published_at : Option Int
deriving Repr, DecidableEq

/-- A normalized feed document (`feed.ts`, interface `ParsedFeed`). -/
structure ParsedFeed where
  title : String
  description : String
  site_url : String
  items : List ParsedFeedItem
deriving Repr, DecidableEq

/-- A refresh outcome (`feed.ts`, interface `RefreshResult`). -/
structure RefreshResult where
  feedId : Nat
  added : Nat
  errors : List String
deriving Repr, DecidableEq

/-- A raw `rss-parser` item: every provider field may be absent
(`undefined`), which the source bridges with `??` chains. -/
structure RawItem where
  guid : Option String
  title : Option String
  link : Option String
  content : Option String
  contentEncoded : Option String
  contentSnippet : Option String
  creator : Option String
  author : Option String
  pubDate : Option String
  isoDate : Option String
deriving Repr, DecidableEq

/-- A raw `rss-parser` document as consumed by `fetchAndParseFeed`. -/
structure RawFeed where
  title : Option String
  description : Option String
  link : Option String
  items : Option (List RawItem)
deriving Repr, DecidableEq

/-- `toUnixSeconds` (`feed.ts`): absent date strings give `null`; the
`dateParse` oracle models `Date.parse`/1000 with `NaN` mapped to `none`. -/
def toUnixSeconds (dateParse : String → Option Int) (dateStr : Option String) : Option Int :=
  match dateStr with
  | none => none
  | some s => dateParse s

/-- The per-item normalization inside `fetchAndParseFeed`: each field is an
`??` fallback chain, in particular `guid: item.guid ?? item.link ??
item.title ?? ""`. -/
def normalizeRawItem (dateParse : String → Option Int) (item : RawItem) : ParsedFeedItem :=
  { guid := item.guid.getD (item.link.getD (item.title.getD ""))
    title := item.title.getD ""
    link := item.link.getD ""
    content := item.contentEncoded.getD (item.content.getD "")
    summary := item.contentSnippet.getD ""
    author := item.creator.getD (item.author.getD "")
    published_at := toUnixSeconds dateParse (item.pubDate.orElse fun _ => item.isoDate) }

/-- `fetchAndParseFeed` (`feed.ts`) after the network fetch: normalizes the
raw document into a `ParsedFeed` (`feed.items ?? []`, mapped). -/
def fetchAndParseFeed (dateParse : String → Option Int) (raw : RawFeed) : ParsedFeed :=
  { title := raw.title.getD ""
    description := raw.description.getD ""
    site_url := raw.link.getD ""
    items := (raw.items.getD []).map (normalizeRawItem dateParse) }

/-- The `UpsertArticleInput` literal built inside `refreshFeed`'s item
loop. -/
def itemToInput (feedId : Nat) (item : ParsedFeedItem) : UpsertArticleInput :=
  { feed_id := feedId
    guid := item.guid
    title := item.title
    link := item.link
    content := item.content
    summary := item.summary
    author := item.author
    published_at := item.published_at }

/-- The `for (const item of parsed.items)` loop of `refreshFeed`: each item
either upserts (counted in `added`) or throws — the store-level failure of
item `i` is modelled by the oracle `itemErr i = some msg` — in which case the
message is appended to `errors` and the loop continues.  Returns the state,
`added` and the appended error messages, in item order. -/
def processItems (itemErr : Nat → Option String) (now : Nat) (feedId : Nat) :
    List ParsedFeedItem → Nat → Db → Db × Nat × List String
  | [], _, db => (db, 0, [])
  | item :: rest, i, db =>
    match itemErr i with
    | some e =>
      let r := processItems itemErr now feedId rest (i + 1) db
      (r.1, r.2.1, e :: r.2.2)
    | none =>
      let db1 := (upsertArticle db now (itemToInput feedId item)).1
      let r := processItems itemErr now feedId rest (i + 1) db1
      (r.1, r.2.1 + 1, r.2.2)

/-- `refreshFeed` (`feed.ts`).  The network fetch-and-parse of a URL is the
oracle `fetch` (`.error` models a thrown `FetchError`); per-item store
failures are the oracle `upsertErr feedId i`.  Unknown feed and fetch
failure return early with `added = 0` and one error; otherwise all items
are processed and the feed's `last_fetched_at` is touched. -/
def refreshFeed (fetch : String → Except String ParsedFeed)
    (upsertErr : Nat → Nat → Option String) (now : Nat) (db : Db) (feedId : Nat) :
    Db × RefreshResult :=
  match getFeedById db feedId with
  | none =>
    (db, { feedId := feedId, added := 0, errors := ["Feed " ++ toString feedId ++ " not found"] })
  | some feed =>
    match fetch feed.url with
    | .error msg => (db, { feedId := feedId, added := 0, errors := [msg] })
    | .ok parsed =>
      let r := processItems (upsertErr feedId) now feedId parsed.items 0 db
      (touchFeedFetchedAt r.1 feedId now,
       { feedId := feedId, added := r.2.1, errors := r.2.2 })

/-- The iteration of `refreshAllFeeds` over the feed list, threading the
shared store. -/
def refreshAllGo (fetch : String → Except String ParsedFeed)
    (upsertErr : Nat → Nat → Option String) (now : Nat) :
    List FeedWithUnread → Db → Db × List RefreshResult
  | [], db => (db, [])
  | f :: fs, db =>
    let p := refreshFeed fetch upsertErr now db f.id
    let q := refreshAllGo fetch upsertErr now fs p.1
    (q.1, p.2 :: q.2)

/-- `refreshAllFeeds` (`feed.ts`): `listFeeds` then `refreshFeed` for each
feed, collecting one result per feed. -/
def refreshAllFeeds (fetch : String → Except String ParsedFeed)
    (upsertErr : Nat → Nat → Option String) (now : Nat) (db : Db) :
    Db × List RefreshResult :=
  refreshAllGo fetch upsertErr now (listFeeds db) db

-- ─── Search core (`services/search.ts`) ───────────────────────────────────────

/-- A row of `searchArticles`'s result set (`search.ts`, interface
`SearchResult`). -/
structure SearchResult where
  id : Nat
  feed_id : Nat
  guid : String
  title : String
  link : String
  summary : String
  author : String
  published_at : Option Int
  is_read : Nat
  is_starred : Nat
  feed_title : String
deriving Repr, DecidableEq

/-- The whitespace class of the JavaScript `\s` / `trim` on the ASCII
range. -/
def isJsWs (c : Char) : Bool :=
  c == ' ' || c == '\t' || c == '\n' || c == '\r' || c == '\x0b' || c == '\x0c'

/-- The FTS5 operator characters stripped by `sanitizeFtsQuery`'s regular
expression character class `["*^():+-]`. -/
def isFtsOperator (c : Char) : Bool :=
  c == '"' || c == '*' || c == '^' || c == '(' || c == ')' || c == ':' || c == '+' || c == '-'

/-- `raw.replace(/["*^():+-]/g, " ")`: each operator character becomes a
space.  Query strings are modelled as their character lists. -/
def stripOps (l : List Char) : List Char :=
  l.map fun c => if isFtsOperator c then ' ' else c

/-- JavaScript `String.prototype.trim` on a character list. -/
def trimWs (l : List Char) : List Char :=
  ((l.dropWhile isJsWs).reverse.dropWhile isJsWs).reverse

/-- Accumulator-based scanner behind `wsTokens`; `acc` holds the current
token reversed. -/
def wsTokensAux : List Char → List Char → List (List Char)
  | [], acc => if acc.isEmpty then [] else [acc.reverse]
  | c :: cs, acc =>
    if isJsWs c then
      if acc.isEmpty then wsTokensAux cs [] else acc.reverse :: wsTokensAux cs []
    else wsTokensAux cs (c :: acc)

/-- `stripped.split(/\s+/).filter(Boolean)`: the maximal non-whitespace
runs, i.e. the token list with empty tokens dropped. -/
def wsTokens (l : List Char) : List (List Char) :=
  wsTokensAux l []

/-- `tokens[tokens.length - 1] = tokens[tokens.length - 1] + "*"`: append
the prefix wildcard to the final token only. -/
def starLast : List (List Char) → List (List Char)
  | [] => []
  | [t] => [t ++ ['*']]
  | t :: ts => t :: starLast ts

/-- `tokens.join(" ")`. -/
def joinSpace : List (List Char) → List Char
  | [] => []
  | [t] => t
  | t :: ts => t ++ ' ' :: joinSpace ts

/-- `sanitizeFtsQuery` (`search.ts`): strip operator characters, trim,
tokenize on whitespace, star the last token, join with single spaces; an
operator-only query yields the empty string. -/
def sanitizeFtsQuery (raw : List Char) : List Char :=
  joinSpace (starLast (wsTokens (trimWs (stripOps raw))))

/-- `searchArticles` (`search.ts`), instrumented: the first component is
the string issued to the FTS index via `MATCH` (`none` when the function
returns `[]` before touching the index); the abstract `engine` oracle is
the index's ranked result list for a query, truncated by `LIMIT`. -/
def searchArticlesCore (engine : List Char → List SearchResult)
    (query : List Char) (limit : Nat) : Option (List Char) × List SearchResult :=
  let trimmed := trimWs query
  if trimmed.isEmpty then (none, [])
  else
    let ftsQuery := sanitizeFtsQuery trimmed
    if ftsQuery.isEmpty then (none, [])
    else (some ftsQuery, (engine ftsQuery).take limit)

/-- `searchArticles`'s return value proper. -/
def searchArticles (engine : List Char → List SearchResult)
    (query : List Char) (limit : Nat) : List SearchResult :=
  (searchArticlesCore engine query limit).2

/-- The sanitization pipeline exactly as the specification words it:
replace each reserved character by a space, split on whitespace dropping
empty tokens, append the wildcard to the final token only, join the tokens
with a single space. -/
def specSanitizedQuery (query : List Char) : List Char :=
  joinSpace (starLast (wsTokens (query.map fun c => if isFtsOperator c then ' ' else c)))

-- ─── Migrations (`db/schema.ts`) ──────────────────────────────────────────────

/-- The migration-relevant store state: whether the bookkeeping table
exists, the recorded applied versions, and the set of created schema
objects. -/
structure MigDb where
  migrationsTable : Bool
  appliedVersions : List Nat
  schemaObjects : List String
deriving Repr, DecidableEq

/-- One `CREATE ... IF NOT EXISTS` statement: create the object unless it
already exists. -/
def createIfNotExists (l : List String) (x : String) : List String :=
  if x ∈ l then l else l ++ [x]

/-- Run a migration's SQL: every statement in the migration scripts is
`CREATE ... IF NOT EXISTS`. -/
def createObjects (objs : List String) (l : List String) : List String :=
  objs.foldl createIfNotExists l

/-- The `MIGRATIONS` array of `schema.ts`: version 1 creates the four
tables, the FTS5 shadow table and its three triggers. -/
def MIGRATIONS : List (Nat × List String) :=
  [(1, ["feeds", "articles", "tags", "article_tags", "articles_fts",
        "articles_fts_insert", "articles_fts_update", "articles_fts_delete"])]

/-- The loop body of `runMigrations`: skip an already-recorded version,
otherwise apply its SQL and record the version, atomically. -/
def applyMigration (d : MigDb) (m : Nat × List String) : MigDb :=
  if m.1 ∈ d.appliedVersions then d
  else
    { d with
      schemaObjects := createObjects m.2 d.schemaObjects
      appliedVersions := d.appliedVersions ++ [m.1] }

/-- `runMigrations` (`schema.ts`): ensure the `migrations` table, read the
applied versions, and apply each pending migration in order. -/
def runMigrations (d : MigDb) : MigDb :=
  MIGRATIONS.foldl applyMigration { d with migrationsTable := true }

-- ─── Frame relation of the conflict branch ────────────────────────────────────

/-- The pairwise frame relation of the conflict branch: identity, ownership,
key, flags and creation time survive the upsert, and rows that do not match
the conflicting key are untouched entirely. -/
def upsertFrame (a : UpsertArticleInput) (old new : Article) : Prop :=
  new.id = old.id ∧ new.feed_id = old.feed_id ∧ new.guid = old.guid ∧
  new.is_read = old.is_read ∧ new.is_starred = old.is_starred ∧
  new.created_at = old.created_at ∧
  (articleKeyMatches a.feed_id a.guid old = false → new = old)

-- ─── Concrete store values and oracles used by the witnesses ──────────────────

/-- A concrete feed row. -/
def sampleFeed : Feed :=
  { id := 1, url := "https://example.com/feed", title := "Example", description := "",
    site_url := "", category := "", created_at := 10, last_fetched_at := none }

/-- A store holding one feed and no articles. -/
def sampleDb : Db := { feeds := [sampleFeed], articles := [], nextArticleId := 1 }

/-- A first article version for feed 1, guid `g`. -/
def sampleInput1 : UpsertArticleInput :=
  { feed_id := 1, guid := "g", title := "v1", link := "l1", content := "c1",
    summary := "s1", author := "a1", published_at := some 100 }

/-- A second version with the same `(feed_id, guid)` key and different
content fields. -/
def sampleInput2 : UpsertArticleInput :=
  { feed_id := 1, guid := "g", title := "v2", link := "l2", content := "c2",
    summary := "s2", author := "a2", published_at := none }

/-- An already-stored (starred) article under the key of `sampleInput2`. -/
def sampleArticle : Article :=
  { id := 1, feed_id := 1, guid := "g", title := "v1", link := "l1", content := "c1",
    summary := "s1", author := "a1", published_at := some 100, is_read := 0,
    is_starred := 1, created_at := 10 }

/-- The one-feed, one-article store after the user marks the article read. -/
def sampleDbRead : Db :=
  markArticleRead { feeds := [sampleFeed], articles := [sampleArticle], nextArticleId := 2 } 1 true

/-- A parsed item as produced by the test fixture's first mock entry. -/
def sampleParsedItem1 : ParsedFeedItem :=
  { guid := "guid-1", title := "Article One", link := "https://example.com/1",
    content := "Full content one", summary := "Summary one", author := "Alice",
    published_at := some 1700000000 }

/-- A second parsed item. -/
def sampleParsedItem2 : ParsedFeedItem :=
  { guid := "guid-2", title := "Article Two", link := "https://example.com/2",
    content := "Full content two", summary := "Summary two", author := "Bob",
    published_at := some 1700000100 }

/-- A two-item parsed feed document. -/
def sampleParsedFeed : ParsedFeed :=
  { title := "Test Feed", description := "A feed for testing",
    site_url := "https://example.com", items := [sampleParsedItem1, sampleParsedItem2] }

/-- A fetch oracle that always fails with a network timeout. -/
def failingFetch : String → Except String ParsedFeed := fun _ => .error "Network timeout"

/-- A fetch oracle that always returns the two-item sample document. -/
def okFetch : String → Except String ParsedFeed := fun _ => .ok sampleParsedFeed

/-- A store oracle under which no per-item upsert fails. -/
def noUpsertErr : Nat → Nat → Option String := fun _ _ => none

/-- A store oracle under which the second item (index 1) of every feed fails
with a constraint violation. -/
def secondItemErr : Nat → Nat → Option String :=
  fun _ i => if i == 1 then some "UNIQUE constraint failed" else none

-- ─── Lemmas on the article upsert ─────────────────────────────────────────────

lemma applyContentUpdate_key (a : UpsertArticleInput) (r : Article) :
    articleKeyMatches a.feed_id a.guid (applyContentUpdate a r) =
      articleKeyMatches a.feed_id a.guid r := rfl

lemma filter_updateFirstMatch_length (a : UpsertArticleInput) (l : List Article) :
    ((updateFirstMatch a l).filter (articleKeyMatches a.feed_id a.guid)).length =
      (l.filter (articleKeyMatches a.feed_id a.guid)).length := by
  induction l with
  | nil => rfl
  | cons x xs ih =>
    cases hx : articleKeyMatches a.feed_id a.guid x with
    | true =>
      simp [updateFirstMatch, hx, List.filter_cons, applyContentUpdate_key]
    | false =>
      simp [updateFirstMatch, hx, List.filter_cons, ih]

lemma updateFirstMatch_content (a : UpsertArticleInput) (l : List Article)
    (hcount : (l.filter (articleKeyMatches a.feed_id a.guid)).length ≤ 1) :
    ∀ r ∈ updateFirstMatch a l, articleKeyMatches a.feed_id a.guid r = true →
      r.title = a.title ∧ r.link = a.link ∧ r.content = a.content ∧
      r.summary = a.summary ∧ r.author = a.author ∧ r.published_at = a.published_at := by
  induction l with
  | nil => intro r hr; cases hr
  | cons x xs ih =>
    intro r hr hkey
    cases hx : articleKeyMatches a.feed_id a.guid x with
    | true =>
      rw [updateFirstMatch, if_pos hx] at hr
      rcases List.mem_cons.mp hr with rfl | hr
      · exact ⟨rfl, rfl, rfl, rfl, rfl, rfl⟩
      · exfalso
        have hlen : (xs.filter (articleKeyMatches a.feed_id a.guid)).length = 0 := by
          rw [List.filter_cons, if_pos hx] at hcount
          simpa using hcount
        have hnil : xs.filter (articleKeyMatches a.feed_id a.guid) = [] :=
          List.length_eq_zero.mp hlen
        have := List.filter_eq_nil_iff.mp hnil r hr
        exact this hkey
    | false =>
      rw [updateFirstMatch, if_neg (by simp [hx])] at hr
      rcases List.mem_cons.mp hr with rfl | hr
      · rw [hx] at hkey; cases hkey
      · have hcount' : (xs.filter (articleKeyMatches a.feed_id a.guid)).length ≤ 1 := by
          rw [List.filter_cons, if_neg (by simp [hx])] at hcount
          exact hcount
        exact ih hcount' r hr hkey

lemma countKey_upsertArticle (db : Db) (now : Nat) (a : UpsertArticleInput)
    (h : countKey db a.feed_id a.guid ≤ 1) :
    countKey (upsertArticle db now a).1 a.feed_id a.guid = 1 := by
  rw [upsertArticle]
  cases hf : findByKey db a.feed_id a.guid with
  | none =>
    have hnil : db.articles.filter (articleKeyMatches a.feed_id a.guid) = [] := by
      rw [List.filter_eq_nil_iff]
      intro x hx
      exact List.find?_eq_none.mp hf x hx
    simp [countKey, List.filter_append, hnil, newArticleRow, articleKeyMatches]
  | some r =>
    have hmem : r ∈ db.articles.filter (articleKeyMatches a.feed_id a.guid) :=
      List.mem_filter.mpr ⟨List.mem_of_find?_eq_some hf, List.find?_some hf⟩
    have hpos : 0 < countKey db a.feed_id a.guid := by
      rw [countKey]
      exact List.length_pos.mpr (List.ne_nil_of_mem hmem)
    have h1 : countKey db a.feed_id a.guid = 1 := by omega
    rw [countKey] at h1 ⊢
    simpa [filter_updateFirstMatch_length] using h1

lemma upsertArticle_content (db : Db) (now : Nat) (a : UpsertArticleInput)
    (h : countKey db a.feed_id a.guid ≤ 1) :
    ∀ r ∈ (upsertArticle db now a).1.articles,
      articleKeyMatches a.feed_id a.guid r = true →
        r.title = a.title ∧ r.link = a.link ∧ r.content = a.content ∧
        r.summary = a.summary ∧ r.author = a.author ∧ r.published_at = a.published_at := by
  rw [upsertArticle]
  cases hf : findByKey db a.feed_id a.guid with
  | none =>
    intro r hr hkey
    simp only [List.mem_append, List.mem_singleton] at hr
    rcases hr with hr | rfl
    · exact absurd hkey (by simpa using List.find?_eq_none.mp hf r hr)
    · exact ⟨rfl, rfl, rfl, rfl, rfl, rfl⟩
  | some r₀ =>
    exact updateFirstMatch_content a db.articles h

lemma upsertFrame_refl (a : UpsertArticleInput) (r : Article) : upsertFrame a r r :=
  ⟨rfl, rfl, rfl, rfl, rfl, rfl, fun _ => rfl⟩

lemma forall₂_updateFirstMatch (a : UpsertArticleInput) (l : List Article) :
    List.Forall₂ (upsertFrame a) l (updateFirstMatch a l) := by
  induction l with
  | nil => exact List.Forall₂.nil
  | cons x xs ih =>
    cases hx : articleKeyMatches a.feed_id a.guid x with
    | true =>
      rw [updateFirstMatch, if_pos hx]
      refine List.Forall₂.cons ⟨rfl, rfl, rfl, rfl, rfl, rfl, ?_⟩
        (List.forall₂_same.mpr fun y _ => upsertFrame_refl a y)
      intro hc; rw [hx] at hc; cases hc
    | false =>
      rw [updateFirstMatch, if_neg (by simp [hx])]
      exact List.Forall₂.cons (upsertFrame_refl a x) ih

-- ─── C1 / C2 ──────────────────────────────────────────────────────────────────

/-- C1: upserting an article with the same `(feed_id, guid)` pair twice —
with possibly different content fields — into a store satisfying the unique
constraint yields exactly one stored row for that pair, and that row carries
the title, link, content, summary, author and published_at of the latest
upsert. -/
theorem upsertArticle_same_key_twice (db : Db) (now₁ now₂ : Nat)
    (a₁ a₂ : UpsertArticleInput)
    (hfid : a₁.feed_id = a₂.feed_id) (hguid : a₁.guid = a₂.guid)
    (huniq : countKey db a₂.feed_id a₂.guid ≤ 1) :
    countKey (upsertArticle (upsertArticle db now₁ a₁).1 now₂ a₂).1 a₂.feed_id a₂.guid = 1 ∧
    ∀ r ∈ (upsertArticle (upsertArticle db now₁ a₁).1 now₂ a₂).1.articles,
      articleKeyMatches a₂.feed_id a₂.guid r = true →
        r.title = a₂.title ∧ r.link = a₂.link ∧ r.content = a₂.content ∧
        r.summary = a₂.summary ∧ r.author = a₂.author ∧ r.published_at = a₂.published_at := by
  have h1 : countKey (upsertArticle db now₁ a₁).1 a₁.feed_id a₁.guid = 1 := by
    apply countKey_upsertArticle
    rw [hfid, hguid]; exact huniq
  have h2 : countKey (upsertArticle db now₁ a₁).1 a₂.feed_id a₂.guid ≤ 1 := by
    rw [← hfid, ← hguid, h1]
  exact ⟨countKey_upsertArticle _ now₂ a₂ h2, upsertArticle_content _ now₂ a₂ h2⟩

/-- Witness for C1 at a concrete store: version `v1` then `v2` under the key
`(1, "g")`. -/
theorem upsertArticle_same_key_twice_witness :
    (sampleInput1.feed_id = sampleInput2.feed_id ∧ sampleInput1.guid = sampleInput2.guid ∧
      countKey sampleDb sampleInput2.feed_id sampleInput2.guid ≤ 1) ∧
    (countKey (upsertArticle (upsertArticle sampleDb 11 sampleInput1).1 12 sampleInput2).1
        sampleInput2.feed_id sampleInput2.guid = 1 ∧
      ∀ r ∈ (upsertArticle (upsertArticle sampleDb 11 sampleInput1).1 12 sampleInput2).1.articles,
        articleKeyMatches sampleInput2.feed_id sampleInput2.guid r = true →
          r.title = sampleInput2.title ∧ r.link = sampleInput2.link ∧
          r.content = sampleInput2.content ∧ r.summary = sampleInput2.summary ∧
          r.author = sampleInput2.author ∧ r.published_at = sampleInput2.published_at) :=
  ⟨⟨rfl, rfl, by decide⟩,
    upsertArticle_same_key_twice sampleDb 11 12 sampleInput1 sampleInput2 rfl rfl (by decide)⟩

/-- C2: when an article with the given `(feed_id, guid)` already exists,
the upsert takes the conflict branch: the feed table and the id counter are
untouched, the article list is updated pairwise so that every row keeps its
id, ownership, guid, `is_read`, `is_starred` and `created_at`, and every row
not matching the conflicting key is left entirely unchanged. -/
theorem upsertArticle_conflict_frame (db : Db) (now : Nat) (a : UpsertArticleInput)
    (h : (findByKey db a.feed_id a.guid).isSome = true) :
    (upsertArticle db now a).1.feeds = db.feeds ∧
    (upsertArticle db now a).1.nextArticleId = db.nextArticleId ∧
    List.Forall₂ (upsertFrame a) db.articles (upsertArticle db now a).1.articles := by
  obtain ⟨r, hr⟩ := Option.isSome_iff_exists.mp h
  unfold upsertArticle
  rw [hr]
  exact ⟨rfl, rfl, forall₂_updateFirstMatch a db.articles⟩

-- ─── Lemmas on the refresh loop ───────────────────────────────────────────────

lemma upsertArticle_feeds (db : Db) (now : Nat) (a : UpsertArticleInput) :
    (upsertArticle db now a).1.feeds = db.feeds := by
  rw [upsertArticle]
  cases findByKey db a.feed_id a.guid <;> rfl

lemma upsertArticle_nextId_le (db : Db) (now : Nat) (a : UpsertArticleInput) :
    (upsertArticle db now a).1.articles.length ≤ db.articles.length + 1 := by
  rw [upsertArticle]
  cases findByKey db a.feed_id a.guid with
  | some r =>
    have : ∀ l : List Article, (updateFirstMatch a l).length = l.length := by
      intro l
      induction l with
      | nil => rfl
      | cons x xs ih =>
        rw [updateFirstMatch]
        by_cases hx : articleKeyMatches a.feed_id a.guid x = true
        · rw [if_pos hx]; rfl
        · rw [if_neg hx]; simpa using ih
    simp [this]
  | none => simp

lemma processItems_feeds (itemErr : Nat → Option String) (now feedId : Nat) :
    ∀ (items : List ParsedFeedItem) (i : Nat) (db : Db),
      (processItems itemErr now feedId items i db).1.feeds = db.feeds := by
  intro items
  induction items with
  | nil => intro i db; rfl
  | cons item rest ih =>
    intro i db
    rw [processItems]
    cases itemErr i with
    | some e => exact ih (i + 1) db
    | none => rw [ih]; exact upsertArticle_feeds db now (itemToInput feedId item)

lemma processItems_count (itemErr : Nat → Option String) (now feedId : Nat) :
    ∀ (items : List ParsedFeedItem) (i : Nat) (db : Db),
      (processItems itemErr now feedId items i db).2.1 +
          (processItems itemErr now feedId items i db).2.2.length = items.length := by
  intro items
  induction items with
  | nil => intro i db; rfl
  | cons item rest ih =>
    intro i db
    rw [processItems]
    cases itemErr i with
    | some e =>
      have := ih (i + 1) db
      simp only [List.length_cons]
      omega
    | none =>
      have := ih (i + 1) ((upsertArticle db now (itemToInput feedId item)).1)
      simp only [List.length_cons]
      omega

lemma processItems_articles_le (itemErr : Nat → Option String) (now feedId : Nat) :
    ∀ (items : List ParsedFeedItem) (i : Nat) (db : Db),
      (processItems itemErr now feedId items i db).1.articles.length ≤
        db.articles.length + (processItems itemErr now feedId items i db).2.1 := by
  intro items
  induction items with
  | nil => intro i db; simp [processItems]
  | cons item rest ih =>
    intro i db
    rw [processItems]
    cases itemErr i with
    | some e => exact ih (i + 1) db
    | none =>
      have h1 := ih (i + 1) ((upsertArticle db now (itemToInput feedId item)).1)
      have h2 := upsertArticle_nextId_le db now (itemToInput feedId item)
      simp only []
      omega

lemma find?_touch (l : List Feed) (fid now : Nat) :
    (l.map fun f => if f.id == fid then { f with last_fetched_at := some now } else f).find?
        (fun f => f.id == fid) =
      (l.find? (fun f => f.id == fid)).map
        (fun f => { f with last_fetched_at := some now }) := by
  induction l with
  | nil => rfl
  | cons x xs ih =>
    by_cases hx : x.id = fid
    · simp [List.find?_cons, hx]
    · have hb : (x.id == fid) = false := by simp [hx]
      simp only [List.map_cons, hb, Bool.false_eq_true, if_false, List.find?_cons]
      exact ih

lemma getFeedById_touch (db : Db) (fid now : Nat) :
    getFeedById (touchFeedFetchedAt db fid now) fid =
      (getFeedById db fid).map (fun f => { f with last_fetched_at := some now }) := by
  rw [getFeedById, getFeedById, touchFeedFetchedAt]
  exact find?_touch db.feeds fid now

lemma refreshFeed_feedId (fetch : String → Except String ParsedFeed)
    (upsertErr : Nat → Nat → Option String) (now : Nat) (db : Db) (fid : Nat) :
    (refreshFeed fetch upsertErr now db fid).2.feedId = fid := by
  rw [refreshFeed]
  cases getFeedById db fid with
  | none => rfl
  | some feed =>
    cases hf : fetch feed.url with
    | error msg => simp [hf]
    | ok parsed => simp [hf]

lemma refreshAllGo_forall₂ (fetch : String → Except String ParsedFeed)
    (upsertErr : Nat → Nat → Option String) (now : Nat) :
    ∀ (fs : List FeedWithUnread) (db : Db),
      List.Forall₂ (fun (r : RefreshResult) (f : FeedWithUnread) => r.feedId = f.id)
        (refreshAllGo fetch upsertErr now fs db).2 fs := by
  intro fs
  induction fs with
  | nil => intro db; exact List.Forall₂.nil
  | cons f fs ih =>
    intro db
    rw [refreshAllGo]
    exact List.Forall₂.cons (refreshFeed_feedId fetch upsertErr now db f.id) (ih _)

/-- Witness for C2: mark the stored article read, re-upsert the same guid
with fresh content, and the flags survive (`is_read` still `1`). -/
theorem upsertArticle_conflict_frame_witness :
    ((findByKey sampleDbRead sampleInput2.feed_id sampleInput2.guid).isSome = true) ∧
    ((upsertArticle sampleDbRead 13 sampleInput2).1.feeds = sampleDbRead.feeds ∧
      (upsertArticle sampleDbRead 13 sampleInput2).1.nextArticleId = sampleDbRead.nextArticleId ∧
      List.Forall₂ (upsertFrame sampleInput2) sampleDbRead.articles
        (upsertArticle sampleDbRead 13 sampleInput2).1.articles) ∧
    (upsertArticle sampleDbRead 13 sampleInput2).1.articles.map (fun r => r.is_read) = [1] :=
  ⟨by decide, upsertArticle_conflict_frame sampleDbRead 13 sampleInput2 (by decide), by decide⟩

-- ─── C7: unknown feed id ──────────────────────────────────────────────────────

/-- C7: refreshing a feed id that does not exist returns — never throws — a
result with `added = 0` and exactly the one `not found` error message, and
leaves the store completely unchanged. -/
theorem refreshFeed_unknown_feed (fetch : String → Except String ParsedFeed)
    (upsertErr : Nat → Nat → Option String) (now : Nat) (db : Db) (fid : Nat)
    (h : getFeedById db fid = none) :
    refreshFeed fetch upsertErr now db fid =
      (db, { feedId := fid, added := 0,
             errors := ["Feed " ++ toString fid ++ " not found"] }) := by
  rw [refreshFeed, h]

/-- Witness for C7: feed id `9999` is absent from the sample store. -/
theorem refreshFeed_unknown_feed_witness :
    getFeedById sampleDb 9999 = none ∧
    refreshFeed (fun _ => .error "unused") (fun _ _ => none) 7 sampleDb 9999 =
      (sampleDb, { feedId := 9999, added := 0, errors := ["Feed 9999 not found"] }) :=
  ⟨by decide,
    refreshFeed_unknown_feed (fun _ => .error "unused") (fun _ _ => none) 7 sampleDb 9999
      (by decide)⟩

-- ─── C4: fetch failure versus fetch success ───────────────────────────────────

/-- C4: for an existing feed, a failing fetch-and-parse makes `refreshFeed`
return (not throw) `added = 0` with the error's message as the sole entry of
`errors` and the store — in particular `last_fetched_at` — untouched; a
successful fetch ends, after the item loop, by setting the feed's
`last_fetched_at` to the current time. -/
theorem refreshFeed_error_keeps_timestamp (fetch : String → Except String ParsedFeed)
    (upsertErr : Nat → Nat → Option String) (now : Nat) (db : Db) (fid : Nat) (feed : Feed)
    (hfeed : getFeedById db fid = some feed) :
    (∀ msg, fetch feed.url = .error msg →
      refreshFeed fetch upsertErr now db fid =
        (db, { feedId := fid, added := 0, errors := [msg] })) ∧
    (∀ parsed, fetch feed.url = .ok parsed →
      (getFeedById (refreshFeed fetch upsertErr now db fid).1 fid).map
          (fun f => f.last_fetched_at) = some (some now)) := by
  constructor
  · intro msg hmsg
    rw [refreshFeed, hfeed]
    simp [hmsg]
  · intro parsed hok
    rw [refreshFeed, hfeed]
    simp only [hok]
    have hfeeds :
        (processItems (upsertErr fid) now fid parsed.items 0 db).1.feeds = db.feeds :=
      processItems_feeds (upsertErr fid) now fid parsed.items 0 db
    have hget :
        getFeedById (processItems (upsertErr fid) now fid parsed.items 0 db).1 fid =
          some feed := by
      rw [getFeedById, hfeeds]
      exact hfeed
    rw [getFeedById_touch, hget]
    rfl

/-- Witness for C4: on the one-feed store, a timeout leaves the store as it
was, a successful two-item fetch stamps `last_fetched_at` with the current
time. -/
theorem refreshFeed_error_keeps_timestamp_witness :
    getFeedById sampleDb 1 = some sampleFeed ∧
    refreshFeed failingFetch noUpsertErr 7 sampleDb 1 =
      (sampleDb, { feedId := 1, added := 0, errors := ["Network timeout"] }) ∧
    (getFeedById (refreshFeed okFetch noUpsertErr 7 sampleDb 1).1 1).map
        (fun f => f.last_fetched_at) = some (some 7) :=
  ⟨by decide,
    (refreshFeed_error_keeps_timestamp failingFetch noUpsertErr 7 sampleDb 1 sampleFeed
        (by decide)).1 "Network timeout" rfl,
    (refreshFeed_error_keeps_timestamp okFetch noUpsertErr 7 sampleDb 1 sampleFeed
        (by decide)).2 sampleParsedFeed rfl⟩

-- ─── C10: added plus per-item errors covers every item ────────────────────────

/-- C10: when the fetch-and-parse step succeeds, `added` plus the number of
per-item error messages equals the number of normalized items, and the
stored article count grows by at most `added` — an upsert that updates an
existing row is still counted in `added`. -/
theorem refreshFeed_added_errors_partition (fetch : String → Except String ParsedFeed)
    (upsertErr : Nat → Nat → Option String) (now : Nat) (db : Db) (fid : Nat)
    (feed : Feed) (parsed : ParsedFeed)
    (hfeed : getFeedById db fid = some feed) (hok : fetch feed.url = .ok parsed) :
    (refreshFeed fetch upsertErr now db fid).2.added +
        (refreshFeed fetch upsertErr now db fid).2.errors.length = parsed.items.length ∧
    (refreshFeed fetch upsertErr now db fid).1.articles.length ≤
        db.articles.length + (refreshFeed fetch upsertErr now db fid).2.added := by
  rw [refreshFeed, hfeed]
  simp only [hok]
  refine ⟨processItems_count (upsertErr fid) now fid parsed.items 0 db, ?_⟩
  have h1 := processItems_articles_le (upsertErr fid) now fid parsed.items 0 db
  simpa [touchFeedFetchedAt] using h1

/-- Witness for C10: with the two-item feed and the second upsert failing,
`added = 1`, one error, `1 + 1 = 2` items, and one row was created. -/
theorem refreshFeed_added_errors_partition_witness :
    (getFeedById sampleDb 1 = some sampleFeed ∧
      okFetch sampleFeed.url = .ok sampleParsedFeed) ∧
    ((refreshFeed okFetch secondItemErr 7 sampleDb 1).2.added +
        (refreshFeed okFetch secondItemErr 7 sampleDb 1).2.errors.length =
          sampleParsedFeed.items.length ∧
      (refreshFeed okFetch secondItemErr 7 sampleDb 1).1.articles.length ≤
        sampleDb.articles.length + (refreshFeed okFetch secondItemErr 7 sampleDb 1).2.added) :=
  ⟨⟨by decide, rfl⟩,
    refreshFeed_added_errors_partition okFetch secondItemErr 7 sampleDb 1 sampleFeed
      sampleParsedFeed (by decide) rfl⟩

-- ─── C3: one result per feed ──────────────────────────────────────────────────

/-- C3: `refreshAllFeeds` returns exactly one `RefreshResult` per feed of
`listFeeds` — the result list and the feed list have equal length and the
i-th result carries the i-th feed's id — for every fetch oracle and every
store-failure oracle, so no single feed's failure can suppress another
feed's result. -/
theorem refreshAllFeeds_one_result_per_feed (fetch : String → Except String ParsedFeed)
    (upsertErr : Nat → Nat → Option String) (now : Nat) (db : Db) :
    (refreshAllFeeds fetch upsertErr now db).2.length = (listFeeds db).length ∧
    List.Forall₂ (fun (r : RefreshResult) (f : FeedWithUnread) => r.feedId = f.id)
      (refreshAllFeeds fetch upsertErr now db).2 (listFeeds db) := by
  have h := refreshAllGo_forall₂ fetch upsertErr now (listFeeds db) db
  exact ⟨h.length_eq, h⟩

-- ─── C8: GUID resolution order ────────────────────────────────────────────────

/-- C8: `fetchAndParseFeed` resolves every item's GUID as the
provider-supplied guid when present, otherwise the link, otherwise the
title, otherwise the empty string (itemwise over the raw item list). -/
theorem fetchAndParseFeed_guid_fallback (dateParse : String → Option Int) (raw : RawFeed) :
    (fetchAndParseFeed dateParse raw).items.length = (raw.items.getD []).length ∧
    List.Forall₂ (fun (ri : RawItem) (p : ParsedFeedItem) =>
        p.guid =
          match ri.guid with
          | some g => g
          | none =>
            match ri.link with
            | some l => l
            | none =>
              match ri.title with
              | some t => t
              | none => "")
      (raw.items.getD []) (fetchAndParseFeed dateParse raw).items := by
  constructor
  · simp [fetchAndParseFeed]
  · rw [fetchAndParseFeed]
    refine List.forall₂_map_right_iff.mpr (List.forall₂_same.mpr ?_)
    intro ri _
    rcases ri with ⟨guid, title, link, _, _, _, _, _, _, _⟩
    cases guid <;> cases link <;> cases title <;> rfl

-- ─── C9: migration idempotence ────────────────────────────────────────────────

/-- C9: running the migration process twice in succession leaves the
recorded set of applied migration versions unchanged after the second run —
in fact the whole store state is a fixed point, and the second run is an
ordinary total evaluation (it cannot error). -/
theorem runMigrations_idempotent (d : MigDb) :
    (runMigrations (runMigrations d)).appliedVersions = (runMigrations d).appliedVersions ∧
    runMigrations (runMigrations d) = runMigrations d := by
  have h2 : runMigrations (runMigrations d) = runMigrations d := by
    by_cases h : 1 ∈ d.appliedVersions <;>
      simp [runMigrations, MIGRATIONS, applyMigration, h]
  exact ⟨by rw [h2], h2⟩

-- ─── Lemmas on the whitespace tokenizer ───────────────────────────────────────

lemma wsTokensAux_all_ws :
    ∀ l : List Char, (∀ c ∈ l, isJsWs c = true) → ∀ acc : List Char,
      wsTokensAux l acc = if acc.isEmpty then [] else [acc.reverse] := by
  intro l
  induction l with
  | nil => intro _ acc; rfl
  | cons c cs ih =>
    intro h acc
    have hc : isJsWs c = true := h c (List.mem_cons_self c cs)
    have ih0 : wsTokensAux cs [] = [] := by
      simpa using ih (fun x hx => h x (List.mem_cons_of_mem c hx)) []
    rw [wsTokensAux, if_pos hc]
    by_cases ha : acc.isEmpty = true
    · rw [if_pos ha, if_pos ha, ih0]
    · rw [if_neg ha, if_neg ha, ih0]

lemma wsTokensAux_ws_lead :
    ∀ pre : List Char, (∀ c ∈ pre, isJsWs c = true) → ∀ l : List Char,
      wsTokensAux (pre ++ l) [] = wsTokensAux l [] := by
  intro pre
  induction pre with
  | nil => intro _ l; rfl
  | cons c cs ih =>
    intro h l
    have hc : isJsWs c = true := h c (List.mem_cons_self c cs)
    rw [List.cons_append, wsTokensAux, if_pos hc, if_pos List.isEmpty_nil]
    exact ih (fun x hx => h x (List.mem_cons_of_mem c hx)) l

lemma wsTokensAux_ws_suffix :
    ∀ l suf : List Char, (∀ c ∈ suf, isJsWs c = true) → ∀ acc : List Char,
      wsTokensAux (l ++ suf) acc = wsTokensAux l acc := by
  intro l
  induction l with
  | nil =>
    intro suf h acc
    rw [List.nil_append, wsTokensAux_all_ws suf h acc]
    rfl
  | cons c cs ih =>
    intro suf h acc
    rw [List.cons_append, wsTokensAux, wsTokensAux]
    by_cases hc : isJsWs c = true
    · rw [if_pos hc, if_pos hc]
      by_cases ha : acc.isEmpty = true
      · rw [if_pos ha, if_pos ha, ih suf h]
      · rw [if_neg ha, if_neg ha, ih suf h]
    · rw [if_neg hc, if_neg hc, ih suf h]

lemma trimWs_decomp (l : List Char) :
    ∃ pre suf, (∀ c ∈ pre, isJsWs c = true) ∧ (∀ c ∈ suf, isJsWs c = true) ∧
      l = pre ++ trimWs l ++ suf := by
  refine ⟨l.takeWhile isJsWs, ((l.dropWhile isJsWs).reverse.takeWhile isJsWs).reverse,
    fun c hc => List.mem_takeWhile_imp hc,
    fun c hc => List.mem_takeWhile_imp (List.mem_reverse.mp hc), ?_⟩
  have h1 : l = l.takeWhile isJsWs ++ l.dropWhile isJsWs :=
    (List.takeWhile_append_dropWhile isJsWs l).symm
  have h2 := List.takeWhile_append_dropWhile isJsWs (l.dropWhile isJsWs).reverse
  have h3 : l.dropWhile isJsWs =
      trimWs l ++ ((l.dropWhile isJsWs).reverse.takeWhile isJsWs).reverse := by
    calc l.dropWhile isJsWs
        = ((l.dropWhile isJsWs).reverse).reverse := (List.reverse_reverse _).symm
      _ = (((l.dropWhile isJsWs).reverse.takeWhile isJsWs) ++
            ((l.dropWhile isJsWs).reverse.dropWhile isJsWs)).reverse := by rw [h2]
      _ = ((l.dropWhile isJsWs).reverse.dropWhile isJsWs).reverse ++
            ((l.dropWhile isJsWs).reverse.takeWhile isJsWs).reverse := by
            rw [List.reverse_append]
      _ = trimWs l ++ ((l.dropWhile isJsWs).reverse.takeWhile isJsWs).reverse := rfl
  calc l = l.takeWhile isJsWs ++ l.dropWhile isJsWs := h1
    _ = l.takeWhile isJsWs ++
          (trimWs l ++ ((l.dropWhile isJsWs).reverse.takeWhile isJsWs).reverse) := by rw [← h3]
    _ = l.takeWhile isJsWs ++ trimWs l ++
          ((l.dropWhile isJsWs).reverse.takeWhile isJsWs).reverse := by
          rw [List.append_assoc]

lemma isJsWs_strip (c : Char) (h : isJsWs c = true) :
    isJsWs (if isFtsOperator c then ' ' else c) = true := by
  by_cases hc : isFtsOperator c = true
  · rw [if_pos hc]; rfl
  · rw [if_neg hc]; exact h

lemma stripOps_all_ws (q : List Char)
    (h : ∀ c ∈ q, isJsWs c = true ∨ isFtsOperator c = true) :
    ∀ c ∈ stripOps q, isJsWs c = true := by
  intro c hc
  rw [stripOps, List.mem_map] at hc
  obtain ⟨x, hx, rfl⟩ := hc
  rcases h x hx with hw | ho
  · exact isJsWs_strip x hw
  · rw [if_pos ho]; rfl

lemma wsTokens_trimWs (m : List Char) : wsTokens (trimWs m) = wsTokens m := by
  obtain ⟨pre, suf, hpre, hsuf, hm⟩ := trimWs_decomp m
  conv_rhs => rw [hm]
  rw [wsTokens, wsTokens, List.append_assoc, wsTokensAux_ws_lead pre hpre,
    wsTokensAux_ws_suffix (trimWs m) suf hsuf]

lemma wsTokens_stripOps_trimWs (q : List Char) :
    wsTokens (stripOps (trimWs q)) = wsTokens (stripOps q) := by
  obtain ⟨pre, suf, hpre, hsuf, hq⟩ := trimWs_decomp q
  conv_rhs => rw [hq]
  rw [stripOps, stripOps, List.append_assoc, List.map_append, List.map_append,
    wsTokens, wsTokens,
    wsTokensAux_ws_lead _ (fun c hc => by
      rw [List.mem_map] at hc
      obtain ⟨x, hx, rfl⟩ := hc
      exact isJsWs_strip x (hpre x hx)),
    wsTokensAux_ws_suffix _ _ (fun c hc => by
      rw [List.mem_map] at hc
      obtain ⟨x, hx, rfl⟩ := hc
      exact isJsWs_strip x (hsuf x hx))]

lemma joinSpace_starLast_ne_nil :
    ∀ ts : List (List Char), ts ≠ [] → joinSpace (starLast ts) ≠ [] := by
  intro ts h
  match ts with
  | [t] => simp [starLast, joinSpace]
  | t :: t2 :: rest =>
    have hne : starLast (t2 :: rest) ≠ [] := by cases rest <;> simp [starLast]
    match hs : starLast (t2 :: rest) with
    | [] => exact absurd hs hne
    | s :: ss =>
      have h1 : starLast (t :: t2 :: rest) = t :: s :: ss := by
        have h0 : starLast (t :: t2 :: rest) = t :: starLast (t2 :: rest) := rfl
        rw [h0, hs]
      have h2 : joinSpace (t :: s :: ss) = t ++ ' ' :: joinSpace (s :: ss) := rfl
      rw [h1, h2]
      simp

-- ─── C5 / C6: the query pipeline ──────────────────────────────────────────────

/-- C5: whenever any token survives sanitization, `searchArticles` issues
to the FTS index exactly the string described by the spec: reserved
characters replaced by spaces, whitespace tokenization with empty tokens
dropped, a `*` wildcard appended to the final token only, tokens joined by
single spaces. -/
theorem searchArticles_issues_spec_sanitized (engine : List Char → List SearchResult)
    (q : List Char) (limit : Nat) (h : wsTokens (stripOps q) ≠ []) :
    (searchArticlesCore engine q limit).1 = some (specSanitizedQuery q) := by
  have htrim : ¬(trimWs q).isEmpty = true := by
    intro he
    apply h
    have hnil : trimWs q = [] := List.isEmpty_iff.mp he
    have hallq : ∀ c ∈ q, isJsWs c = true := by
      obtain ⟨pre, suf, hpre, hsuf, hq⟩ := trimWs_decomp q
      rw [hnil] at hq
      intro c hc
      rw [hq, List.append_nil] at hc
      rcases List.mem_append.mp hc with hc | hc
      · exact hpre c hc
      · exact hsuf c hc
    exact wsTokensAux_all_ws (stripOps q)
      (stripOps_all_ws q (fun c hc => Or.inl (hallq c hc))) []
  have hfts : sanitizeFtsQuery (trimWs q) = specSanitizedQuery q := by
    rw [sanitizeFtsQuery, specSanitizedQuery, wsTokens_trimWs, wsTokens_stripOps_trimWs]
    rfl
  have hne : ¬(sanitizeFtsQuery (trimWs q)).isEmpty = true := by
    rw [List.isEmpty_iff, hfts, specSanitizedQuery]
    exact joinSpace_starLast_ne_nil _ h
  rw [searchArticlesCore]
  rw [if_neg htrim, if_neg hne, hfts]

/-- Witness for C5: the query `a-b c` issues `a b c*`. -/
theorem searchArticles_issues_spec_sanitized_witness :
    wsTokens (stripOps ['a', '-', 'b', ' ', 'c']) ≠ [] ∧
    (searchArticlesCore (fun _ => []) ['a', '-', 'b', ' ', 'c'] 50).1 =
      some (specSanitizedQuery ['a', '-', 'b', ' ', 'c']) ∧
    specSanitizedQuery ['a', '-', 'b', ' ', 'c'] = ['a', ' ', 'b', ' ', 'c', '*'] :=
  ⟨by decide,
    searchArticles_issues_spec_sanitized (fun _ => []) ['a', '-', 'b', ' ', 'c'] 50 (by decide),
    by decide⟩

/-- C6: a query consisting only of whitespace and reserved operator
characters (including the empty query) makes `searchArticles` return the
empty result list without ever issuing a query to the FTS index. -/
theorem searchArticles_reserved_only (engine : List Char → List SearchResult)
    (q : List Char) (limit : Nat)
    (h : ∀ c ∈ q, isJsWs c = true ∨ isFtsOperator c = true) :
    searchArticlesCore engine q limit = (none, []) := by
  rw [searchArticlesCore]
  by_cases ht : (trimWs q).isEmpty = true
  · rw [if_pos ht]
  · rw [if_neg ht]
    have hsub : ∀ c ∈ trimWs q, isJsWs c = true ∨ isFtsOperator c = true := by
      obtain ⟨pre, suf, hpre, hsuf, hq⟩ := trimWs_decomp q
      intro c hc
      exact h c (by rw [hq]; simp [hc])
    have hws : ∀ c ∈ stripOps (trimWs q), isJsWs c = true := stripOps_all_ws _ hsub
    have htoks : wsTokens (trimWs (stripOps (trimWs q))) = [] := by
      obtain ⟨pre2, suf2, hp2, hs2, hq2⟩ := trimWs_decomp (stripOps (trimWs q))
      exact wsTokensAux_all_ws _ (fun c hc => hws c (by rw [hq2]; simp [hc])) []
    have hsan : sanitizeFtsQuery (trimWs q) = [] := by
      rw [sanitizeFtsQuery, htoks]; rfl
    rw [hsan]
    rfl

/-- Witness for C6: the reserved-only query `-()***` returns no results and
touches no index. -/
theorem searchArticles_reserved_only_witness :
    (∀ c ∈ ['-', '(', ')', '*', '*', '*'], isJsWs c = true ∨ isFtsOperator c = true) ∧
    searchArticlesCore (fun _ => []) ['-', '(', ')', '*', '*', '*'] 50 = (none, []) :=
  ⟨by decide,
    searchArticles_reserved_only (fun _ => []) ['-', '(', ')', '*', '*', '*'] 50 (by decide)⟩

end Burp
